import Mathlib

/-!
Verification of the `widelogger` Go library (field-accumulating "wide event"
logger with an HTTP middleware) against its natural-language specification.

The development shallowly embeds the relevant source files:
  * `widelogger.go` — the per-request field container and the accumulation API
    (`AddFields`, `AddWarning`, `AddError`, `HasWarnings`, `HasErrors`,
    `collectFields`);
  * `middleware.go` — the options-based HTTP middleware (`responseWriter`
    status capture, request seeding, panic guard, severity classification and
    the success-sampling gate).

Go maps are modelled as association lists with a canonical update operation;
Go's dynamically typed `any` values are modelled by the inductive `GoVal`;
the middleware's external nondeterminism (clock, random sampling draw,
request-id generator, the downstream handler's behaviour) is passed in as
explicit parameters.
-/

namespace Widelogger

/-- A dynamically typed Go value (`any`), restricted to the shapes the
library actually stores: strings, integers, string-to-string maps
(`request_headers`), and booleans. -/
inductive GoVal where
  | vstr (s : String)
  | vint (n : Int)
  | vstrmap (m : List (String × String))
  | vbool (b : Bool)
deriving DecidableEq, Repr

/-- `asString` mirrors the Go type assertion `key.(string)`. -/
def GoVal.asString : GoVal → Option String
  | .vstr s => some s
  | _ => none

/-- A warning or error entry (`Warning` struct in `widelogger.go`):
a message plus an optional field map (`nil` map modelled as `none`). -/
structure Entry where
  message : String
  fields : Option (List (String × GoVal))
deriving DecidableEq, Repr

/-- The per-request field container (`fieldContainer` in `widelogger.go`).
The `fields` Go map is modelled as an association list with unique keys. -/
structure Container where
  fields : List (String × GoVal)
  warnings : List Entry
  errors : List Entry
deriving DecidableEq, Repr

/-- The container bound by `NewContext`: empty map and empty slices. -/
def newContainer : Container := { fields := [], warnings := [], errors := [] }

/-- Go map assignment `m[k] = v`: any previous binding of `k` is replaced.
Modelled canonically as filter-out-then-append (Go map iteration order is
unspecified, so only the binding set matters). -/
def mapSet (fs : List (String × GoVal)) (k : String) (v : GoVal) :
    List (String × GoVal) :=
  fs.filter (fun p => p.1 ≠ k) ++ [(k, v)]

/-- Go map lookup `m[k]` (`none` when the key is absent). -/
def mapGet (fs : List (String × GoVal)) (k : String) : Option GoVal :=
  match fs.find? (fun p => p.1 = k) with
  | some p => some p.2
  | none => none

/-- Self-diagnostic records the library writes to the process-wide default
logger (the `getDefaultLogger().WarnContext(...)` calls). -/
inductive Diag where
  | notInitialized (fn : String)
  | oddArgs (fn : String) (argsLen : Nat)
  | keyNotString
deriving DecidableEq, Repr

/-- The pair-application loop of `AddFields` (`widelogger.go` lines 90-97):
step through `keysAndValues` two at a time; a non-string key logs a
`key must be string` diagnostic and skips only that pair; a string key
assigns into the fields map.  (`AddFields` only reaches this loop with an
even-length list.) -/
def addFieldsLoop : List GoVal → List (String × GoVal) →
    List (String × GoVal) × List Diag
  | k :: v :: rest, fs =>
    match k with
    | .vstr s => addFieldsLoop rest (mapSet fs s v)
    | _ =>
      let r := addFieldsLoop rest fs
      (r.1, Diag.keyNotString :: r.2)
  | _, fs => (fs, [])

/-- `AddFields(ctx, keysAndValues...)` from `widelogger.go`.  The context is
modelled by its bound container (`none` = nil context or no container).
Returns the new bound container together with the self-diagnostics logged. -/
def AddFields (c : Option Container) (keysAndValues : List GoVal) :
    Option Container × List Diag :=
  if keysAndValues.length = 0 then (c, [])
  else
    match c with
    | none => (none, [Diag.notInitialized "AddFields"])
    | some cont =>
      if keysAndValues.length % 2 ≠ 0 then
        (some cont, [Diag.oddArgs "AddFields" keysAndValues.length])
      else
        let r := addFieldsLoop keysAndValues cont.fields
        (some { cont with fields := r.1 }, r.2)

/-- The pair-collection loop shared by `AddWarning` and `AddError`
(`for i := 0; i < len(keysAndValues)-1; i += 2`): pairs are formed while two
elements remain; a non-string key silently skips that pair (no diagnostic);
with an odd-length list the trailing element is dropped. -/
def entryPairsLoop : List GoVal → List (String × GoVal) → List (String × GoVal)
  | k :: v :: rest, fs =>
    match k with
    | .vstr s => entryPairsLoop rest (mapSet fs s v)
    | _ => entryPairsLoop rest fs
  | _, fs => fs

/-- The entry built by `AddWarning`/`AddError` from a message and the
key/value arguments: a field map is only allocated when arguments exist. -/
def mkEntry (message : String) (keysAndValues : List GoVal) : Entry :=
  { message := message
    fields :=
      if keysAndValues.length > 0 then some (entryPairsLoop keysAndValues [])
      else none }

/-- `AddWarning(ctx, message, keysAndValues...)` from `widelogger.go`. -/
def AddWarning (c : Option Container) (message : String)
    (keysAndValues : List GoVal) : Option Container × List Diag :=
  match c with
  | none => (none, [Diag.notInitialized "AddWarning"])
  | some cont =>
    (some { cont with
        warnings := cont.warnings ++ [mkEntry message keysAndValues] }, [])

/-- `AddError(ctx, message, keysAndValues...)` from `widelogger.go`. -/
def AddError (c : Option Container) (message : String)
    (keysAndValues : List GoVal) : Option Container × List Diag :=
  match c with
  | none => (none, [Diag.notInitialized "AddError"])
  | some cont =>
    (some { cont with
        errors := cont.errors ++ [mkEntry message keysAndValues] }, [])

/-- `HasWarnings(ctx)` from `widelogger.go`. -/
def HasWarnings (c : Option Container) : Bool :=
  match c with
  | none => false
  | some cont => cont.warnings.length > 0

/-- `HasErrors(ctx)` from `widelogger.go`. -/
def HasErrors (c : Option Container) : Bool :=
  match c with
  | none => false
  | some cont => cont.errors.length > 0

/-- A value appearing in the flat attribute list built by `collectFields`
(the `[]any` slice): a stored field value, a warning/error entry slice, or a
count. -/
inductive AnyVal where
  | gv (v : GoVal)
  | entriesV (es : List Entry)
  | countV (n : Nat)
deriving DecidableEq, Repr

/-- `collectFields(ctx)` from `widelogger.go`: the flat key/value snapshot —
all accumulated fields, then `warnings`/`warning_count` when warnings exist,
then `errors`/`error_count` when errors exist; empty when uninitialized. -/
def collectFields (c : Option Container) : List (String × AnyVal) :=
  match c with
  | none => []
  | some cont =>
    (cont.fields.map (fun p => (p.1, AnyVal.gv p.2)))
    ++ (if cont.warnings.length > 0 then
          [("warnings", AnyVal.entriesV cont.warnings),
           ("warning_count", AnyVal.countV cont.warnings.length)]
        else [])
    ++ (if cont.errors.length > 0 then
          [("errors", AnyVal.entriesV cont.errors),
           ("error_count", AnyVal.countV cont.errors.length)]
        else [])

/-! ## Middleware (`middleware.go`) -/

/-- Wrapped response writer state (`responseWriter` struct): the captured
status code and whether a header has been written. -/
structure RWState where
  statusCode : Int
  written : Bool
deriving DecidableEq, Repr

/-- Initial wrapped writer built by the middleware: status 200, nothing
written yet. -/
def rwInit : RWState := { statusCode := 200, written := false }

/-- `(*responseWriter).WriteHeader(code)`: records the first status only.
(The delegated call to the underlying writer is outside the model.) -/
def rwWriteHeader (rw : RWState) (code : Int) : RWState :=
  if rw.written then rw else { statusCode := code, written := true }

/-- `(*responseWriter).Write(b)`: an implicit `WriteHeader(200)` when no
header was written yet.  The body bytes do not affect the captured state. -/
def rwWrite (rw : RWState) : RWState :=
  if rw.written then rw else rwWriteHeader rw 200

/-- One call the downstream handler makes on the wrapped writer. -/
inductive WriteEvent where
  | writeHeader (code : Int)
  | write
deriving DecidableEq, Repr

/-- Replay a sequence of handler calls on the wrapped writer. -/
def rwApply (rw : RWState) : List WriteEvent → RWState
  | [] => rw
  | .writeHeader code :: es => rwApply (rwWriteHeader rw code) es
  | .write :: es => rwApply (rwWrite rw) es

/-- Severity levels of the `log/slog` sink. -/
inductive Level where
  | debug
  | info
  | warn
  | error
deriving DecidableEq, Repr

/-- Middleware configuration (`config` struct) after applying the functional
options.  The logger and the request-id generator/propagation flag only
affect the sink wiring and the response headers, which are outside the
claims; the panic callback is modelled by whether one is configured. -/
structure Config where
  samplingRate : ℚ
  hasOnPanic : Bool
  excludePaths : List String
  includeHeaders : List String
  requestIDHeader : Option String
deriving DecidableEq, Repr

/-- The configuration `Middleware` starts from before applying options:
sampling rate 1.0, no panic callback, no exclusions, no header allowlist,
no request-id feature. -/
def defaultConfig : Config :=
  { samplingRate := 1
    hasOnPanic := false
    excludePaths := []
    includeHeaders := []
    requestIDHeader := none }

/-- `WithSuccessSampling(rate)`: clamps the rate into [0,1] at configuration
time, then stores it. -/
def WithSuccessSampling (rate : ℚ) (c : Config) : Config :=
  { c with samplingRate :=
      if rate < 0 then 0 else if rate > 1 then 1 else rate }

/-- `WithExcludePaths(paths...)`: adds the paths to the exclusion set. -/
def WithExcludePaths (paths : List String) (c : Config) : Config :=
  { c with excludePaths := c.excludePaths ++ paths }

/-- `WithPanicHandler(fn)`: installs a panic callback. -/
def WithPanicHandler (c : Config) : Config :=
  { c with hasOnPanic := true }

/-- The request data the middleware reads. -/
structure Request where
  method : String
  path : String
  remoteAddr : String
  rawQuery : String
  headers : List (String × String)
deriving DecidableEq, Repr

/-- `r.Header.Get(name)`: the header value, or `""` when absent. -/
def headerGet (hs : List (String × String)) (name : String) : String :=
  match hs.find? (fun p => p.1 = name) with
  | some p => p.2
  | none => ""

/-- The downstream handler's externally visible behaviour: how it mutates
the bound container (through the accumulation API), the calls it makes on
the wrapped writer, and whether it panics (with which recovered value). -/
structure HandlerBehavior where
  mutate : Container → Container
  writes : List WriteEvent
  panics : Option GoVal

/-- One structured record handed to the sink by `Logger.Log`: level,
message, and the flat attribute list from `collectFields`. -/
structure Emission where
  level : Level
  message : String
  attrs : List (String × AnyVal)
deriving DecidableEq, Repr

/-- The outcome of one request through the middleware: the records emitted,
the re-raised panic value if any, and whether the configured panic callback
was invoked. -/
structure MWResult where
  emissions : List Emission
  repanic : Option GoVal
  panicCallbackInvoked : Bool
deriving DecidableEq, Repr

/-- `AddFields` on a context known to hold a container (as in the middleware
body, which always calls it after `NewContext`). -/
def addF (c : Container) (keysAndValues : List GoVal) : Container :=
  match (AddFields (some c) keysAndValues).1 with
  | some c' => c'
  | none => c

/-- The request id the middleware resolves: the inbound header value when
non-empty, otherwise the generator's output (`genID`). -/
def resolveRequestID (req : Request) (headerName genID : String) : String :=
  let fromHeader := headerGet req.headers headerName
  if fromHeader = "" then genID else fromHeader

/-- The configured-header map the middleware builds: only allowlisted names
whose inbound value is non-empty. -/
def includedHeaders (cfg : Config) (req : Request) : List (String × String) :=
  cfg.includeHeaders.filterMap (fun n =>
    let v := headerGet req.headers n
    if v = "" then none else some (n, v))

/-- The container after the middleware's seeding phase (`middleware.go`
lines 152-191): `request_id` when the feature is on, then `method`/`path`/
`remote_addr`, then `query` when the raw query is non-empty, then
`request_headers` when the allowlist matched something. -/
def seedContainer (cfg : Config) (req : Request) (genID : String) : Container :=
  let c1 :=
    match cfg.requestIDHeader with
    | some name =>
      addF newContainer
        [GoVal.vstr "request_id", GoVal.vstr (resolveRequestID req name genID)]
    | none => newContainer
  let c2 := addF c1
    [GoVal.vstr "method", GoVal.vstr req.method,
     GoVal.vstr "path", GoVal.vstr req.path,
     GoVal.vstr "remote_addr", GoVal.vstr req.remoteAddr]
  let c3 :=
    if req.rawQuery ≠ "" then
      addF c2 [GoVal.vstr "query", GoVal.vstr req.rawQuery]
    else c2
  let hs := includedHeaders cfg req
  if cfg.includeHeaders.length > 0 ∧ hs.length > 0 then
    addF c3 [GoVal.vstr "request_headers", GoVal.vstrmap hs]
  else c3

/-- The status the wrapped writer holds when the handler returns. -/
def finalStatus (h : HandlerBehavior) : Int :=
  (rwApply rwInit h.writes).statusCode

/-- The container at classification time on the normal (non-panic) path:
handler mutations, then `status_code` and `duration_ms`, then
`context_error` when the context carries one. -/
def normalFinalContainer (cfg : Config) (req : Request) (h : HandlerBehavior)
    (genID : String) (durMs : Int) (ctxErr : Option String) : Container :=
  let cD := addF (h.mutate (seedContainer cfg req genID))
    [GoVal.vstr "status_code", GoVal.vint (finalStatus h),
     GoVal.vstr "duration_ms", GoVal.vint durMs]
  match ctxErr with
  | some e => addF cD [GoVal.vstr "context_error", GoVal.vstr e]
  | none => cD

/-- The severity classification switch (`middleware.go` lines 221-237). -/
def classify (hasErrs hasWarns : Bool) (status : Int) : Level × String :=
  if hasErrs then (Level.error, "http_request_completed_with_errors")
  else if hasWarns then (Level.warn, "http_request_completed_with_warnings")
  else if 500 ≤ status then (Level.error, "http_request_completed")
  else if 400 ≤ status then (Level.warn, "http_request_completed")
  else (Level.info, "http_request_completed")

/-- One request through the options-based `Middleware` handler.  External
nondeterminism is explicit: `genID` is the request-id generator's output,
`durMs` the measured duration, `ctxErr` the context's cancellation error,
and `draw` the sampling draw `mathrand.Float64()` (a value in [0,1)). -/
def middlewareRun (cfg : Config) (req : Request) (h : HandlerBehavior)
    (genID : String) (durMs : Int) (ctxErr : Option String) (draw : ℚ) :
    MWResult :=
  if cfg.excludePaths.contains req.path then
    -- Excluded: pass through with no wrapping, no guard, no logging.
    { emissions := [], repanic := h.panics, panicCallbackInvoked := false }
  else
    let cSeed := seedContainer cfg req genID
    let cAfter := h.mutate cSeed
    match h.panics with
    | some recovered =>
      -- Panic guard: add the `panic` field, emit at Error, then callback or
      -- re-raise.
      let cP := addF cAfter [GoVal.vstr "panic", recovered]
      let em : Emission :=
        { level := Level.error
          message := "http_request_panic"
          attrs := collectFields (some cP) }
      if cfg.hasOnPanic then
        { emissions := [em], repanic := none, panicCallbackInvoked := true }
      else
        { emissions := [em], repanic := some recovered,
          panicCallbackInvoked := false }
    | none =>
      let cE := normalFinalContainer cfg req h genID durMs ctxErr
      let status := finalStatus h
      let lm := classify (HasErrors (some cE)) (HasWarnings (some cE)) status
      -- Sampling gate: only Info-classified requests with rate < 1 may be
      -- dropped, on a draw strictly above the rate.
      if lm.1 = Level.info ∧ cfg.samplingRate < 1 ∧ draw > cfg.samplingRate then
        { emissions := [], repanic := none, panicCallbackInvoked := false }
      else
        { emissions := [{ level := lm.1, message := lm.2,
                          attrs := collectFields (some cE) }],
          repanic := none, panicCallbackInvoked := false }

/-! ## Spec-side definitions -/

/-- Modelled from the spec's pairing rules: the last value written for
string key `s` in a key/value pair list (later pairs win; non-string keys
never bind). -/
def lastWrite : List GoVal → String → Option GoVal
  | k :: v :: rest, s =>
    match lastWrite rest s with
    | some w => some w
    | none => if k = GoVal.vstr s then some v else none
  | _, _ => none

/-- Modelled from the spec's status-capture rules: the status the wrapped
writer should capture from a call sequence — the first event decides
(explicit `WriteHeader` code, or 200 on a first body write), 200 by
default. -/
def capturedStatus : List WriteEvent → Int
  | [] => 200
  | .writeHeader code :: _ => code
  | .write :: _ => 200

/-! ## Map and snapshot lemmas -/

theorem mapGet_cons (p : String × GoVal) (fs : List (String × GoVal))
    (k : String) :
    mapGet (p :: fs) k = if p.1 = k then some p.2 else mapGet fs k := by
  by_cases h : p.1 = k <;> simp [mapGet, List.find?_cons, h]

theorem mapSet_cons (p : String × GoVal) (fs : List (String × GoVal))
    (k : String) (v : GoVal) :
    mapSet (p :: fs) k v =
      if p.1 = k then mapSet fs k v else p :: mapSet fs k v := by
  by_cases h : p.1 = k <;> simp [mapSet, List.filter_cons, h]

theorem mapGet_mapSet_self (fs : List (String × GoVal)) (k : String)
    (v : GoVal) : mapGet (mapSet fs k v) k = some v := by
  induction fs with
  | nil => simp [mapGet, mapSet]
  | cons p fs ih =>
    rw [mapSet_cons]
    by_cases hpk : p.1 = k
    · simpa [hpk] using ih
    · rw [if_neg hpk, mapGet_cons, if_neg hpk]
      exact ih

theorem mapGet_mapSet_other (fs : List (String × GoVal)) (k k' : String)
    (v : GoVal) (hne : k' ≠ k) :
    mapGet (mapSet fs k v) k' = mapGet fs k' := by
  induction fs with
  | nil =>
    have : ¬ (k = k') := hne.symm
    simp [mapGet, mapSet, this]
  | cons p fs ih =>
    rw [mapSet_cons]
    by_cases hpk : p.1 = k
    · have hpk' : ¬ p.1 = k' := by
        intro h; exact hne (h ▸ hpk)
      rw [if_pos hpk, mapGet_cons, if_neg hpk']
      exact ih
    · rw [if_neg hpk, mapGet_cons, mapGet_cons]
      by_cases hp' : p.1 = k'
      · rw [if_pos hp', if_pos hp']
      · rw [if_neg hp', if_neg hp']
        exact ih

theorem mapGet_mem {fs : List (String × GoVal)} {k : String} {v : GoVal}
    (h : mapGet fs k = some v) : (k, v) ∈ fs := by
  unfold mapGet at h
  match hf : fs.find? (fun p => p.1 = k) with
  | some p =>
    rw [hf] at h
    have hp := List.find?_some hf
    have hmem := List.mem_of_find?_eq_some hf
    have hk : p.1 = k := by simpa using hp
    have hv : p.2 = v := by simpa using h
    have : p = (k, v) := by
      cases p; simp_all
    exact this ▸ hmem
  | none => rw [hf] at h; cases h

/-- Any binding present in the fields map appears (under `AnyVal.gv`) in the
`collectFields` snapshot. -/
theorem collectFields_mem_of_mapGet {cont : Container} {k : String}
    {v : GoVal} (h : mapGet cont.fields k = some v) :
    (k, AnyVal.gv v) ∈ collectFields (some cont) := by
  have hmem : (k, v) ∈ cont.fields := mapGet_mem h
  have : (k, AnyVal.gv v) ∈
      cont.fields.map (fun p => (p.1, AnyVal.gv p.2)) := by
    exact List.mem_map_of_mem (fun p => (p.1, AnyVal.gv p.2)) hmem
  unfold collectFields
  exact List.mem_append_left _ (List.mem_append_left _ this)

/-! ## Writer replay lemmas -/

theorem rwApply_of_written (es : List WriteEvent) :
    ∀ rw : RWState, rw.written = true → rwApply rw es = rw := by
  induction es with
  | nil => intro rw _; rfl
  | cons e es ih =>
    intro rw hw
    cases e with
    | writeHeader code => simp [rwApply, rwWriteHeader, hw, ih rw hw]
    | write => simp [rwApply, rwWrite, hw, ih rw hw]

/-! ## Pair-loop lemmas -/

theorem addFieldsLoop_get (kvs : List GoVal) (fs : List (String × GoVal))
    (s : String) :
    mapGet (addFieldsLoop kvs fs).1 s =
      match lastWrite kvs s with
      | some w => some w
      | none => mapGet fs s := by
  match kvs with
  | [] => simp [addFieldsLoop, lastWrite]
  | [k] => simp [addFieldsLoop, lastWrite]
  | k :: v :: rest =>
    match k with
    | .vstr s' =>
      have ih := addFieldsLoop_get rest (mapSet fs s' v) s
      rw [show addFieldsLoop (GoVal.vstr s' :: v :: rest) fs
            = addFieldsLoop rest (mapSet fs s' v) from rfl]
      rw [ih]
      cases hlw : lastWrite rest s with
      | some w => simp [lastWrite, hlw]
      | none =>
        by_cases hss : s = s'
        · subst hss
          simp [lastWrite, hlw, mapGet_mapSet_self]
        · have hne : ¬ (s' = s) := fun h => hss h.symm
          have hvne : ¬ (GoVal.vstr s' = GoVal.vstr s) := by
            simp [hne]
          simp [lastWrite, hlw, hvne, mapGet_mapSet_other fs s' s v hss]
    | .vint n =>
      have h1 : (addFieldsLoop (GoVal.vint n :: v :: rest) fs).1
          = (addFieldsLoop rest fs).1 := rfl
      rw [h1, addFieldsLoop_get rest fs s]
      cases hlw : lastWrite rest s <;> simp [lastWrite, hlw]
    | .vstrmap m =>
      have h1 : (addFieldsLoop (GoVal.vstrmap m :: v :: rest) fs).1
          = (addFieldsLoop rest fs).1 := rfl
      rw [h1, addFieldsLoop_get rest fs s]
      cases hlw : lastWrite rest s <;> simp [lastWrite, hlw]
    | .vbool b =>
      have h1 : (addFieldsLoop (GoVal.vbool b :: v :: rest) fs).1
          = (addFieldsLoop rest fs).1 := rfl
      rw [h1, addFieldsLoop_get rest fs s]
      cases hlw : lastWrite rest s <;> simp [lastWrite, hlw]

/-- `entryPairsLoop` on an odd-length argument list behaves exactly as on
the list with its trailing element removed: the loop guard
`i < len(keysAndValues)-1` never pairs the last element. -/
theorem entryPairsLoop_dropLast (kvs : List GoVal)
    (hodd : kvs.length % 2 = 1) (fs : List (String × GoVal)) :
    entryPairsLoop kvs fs = entryPairsLoop kvs.dropLast fs := by
  match kvs with
  | [] => simp at hodd
  | [k] => cases k <;> rfl
  | k :: v :: rest =>
    have hrest : rest.length % 2 = 1 := by
      simp only [List.length_cons] at hodd
      omega
    have hne : rest ≠ [] := by
      intro h; subst h; simp at hrest
    have hdl : (k :: v :: rest).dropLast = k :: v :: rest.dropLast := by
      match rest, hne with
      | r :: rest', _ => rfl
    rw [hdl]
    cases k with
    | vstr s =>
      exact entryPairsLoop_dropLast rest hrest (mapSet fs s v)
    | vint n => exact entryPairsLoop_dropLast rest hrest fs
    | vstrmap m => exact entryPairsLoop_dropLast rest hrest fs
    | vbool b => exact entryPairsLoop_dropLast rest hrest fs

/-- `addF` never touches the warnings or errors sequences. -/
theorem addF_warnings_errors (c : Container) (kvs : List GoVal) :
    (addF c kvs).warnings = c.warnings ∧ (addF c kvs).errors = c.errors := by
  unfold addF AddFields
  by_cases h0 : kvs.length = 0
  · simp [h0]
  · by_cases hodd : kvs.length % 2 = 0
    · simp [h0, hodd]
    · simp [h0, hodd]

/-- `addF` with a guaranteed-even pair list updates the fields map per
`addFieldsLoop`. -/
theorem addF_get (c : Container) (kvs : List GoVal)
    (heven : kvs.length % 2 = 0) (s : String) :
    mapGet (addF c kvs).fields s =
      match lastWrite kvs s with
      | some w => some w
      | none => mapGet c.fields s := by
  unfold addF AddFields
  by_cases h0 : kvs.length = 0
  · have : kvs = [] := List.length_eq_zero.mp h0
    subst this
    simp [lastWrite]
  · simp only [h0, if_false, heven]
    simpa using addFieldsLoop_get kvs c.fields s

/-! ## Claim theorems -/

/-- C5: for every initialized context, `AddFields` with an odd-length
argument list rejects the entire call — the bound container (in particular
its field set) is returned exactly as it was, with only the
odd-argument-count self-diagnostic logged. -/
theorem addFields_odd_rejected (c : Container) (kvs : List GoVal)
    (hodd : kvs.length % 2 = 1) :
    AddFields (some c) kvs =
      (some c, [Diag.oddArgs "AddFields" kvs.length]) := by
  have h0 : kvs.length ≠ 0 := by
    intro h; rw [h] at hodd; simp at hodd
  unfold AddFields
  simp [h0, hodd]

theorem addFields_odd_rejected_witness :
    ([GoVal.vstr "k", GoVal.vint 1, GoVal.vstr "x"].length % 2 = 1) ∧
    AddFields (some newContainer)
        [GoVal.vstr "k", GoVal.vint 1, GoVal.vstr "x"] =
      (some newContainer, [Diag.oddArgs "AddFields" 3]) :=
  ⟨by decide,
   addFields_odd_rejected newContainer
     [GoVal.vstr "k", GoVal.vint 1, GoVal.vstr "x"] (by decide)⟩

/-- C10: `AddFields` with zero arguments returns immediately on every
context — initialized or not — changing nothing and logging no
self-diagnostic; by contrast, a non-empty call on an uninitialized context
does log the `context not initialized` diagnostic. -/
theorem addFields_empty_noop (c : Option Container) (k v : GoVal) :
    AddFields c [] = (c, []) ∧
    AddFields none [k, v] = (none, [Diag.notInitialized "AddFields"]) := by
  constructor
  · rfl
  · rfl

/-- C7: on a context with no bound container, every accumulation operation
returns (no panic in the model: all functions are total) without binding or
mutating any container, and `HasWarnings`/`HasErrors` answer `false`. -/
theorem uninitialized_accumulation_safe (kvs : List GoVal) (m : String) :
    (AddFields none kvs).1 = none ∧
    (AddWarning none m kvs).1 = none ∧
    (AddError none m kvs).1 = none ∧
    HasWarnings none = false ∧
    HasErrors none = false := by
  refine ⟨?_, rfl, rfl, rfl, rfl⟩
  unfold AddFields
  by_cases h0 : kvs.length = 0 <;> simp [h0]

/-- C1 counterexample: `AddWarning` on an initialized context with an
odd-length pair list does not reject the call — it appends an entry (whose
field map pairs up the first two arguments and drops the trailing one) and
logs no odd-argument-count diagnostic, so the warnings sequence changes. -/
theorem addWarning_odd_appends_concrete :
    AddWarning (some newContainer) "m"
        [GoVal.vstr "k", GoVal.vint 1, GoVal.vstr "extra"] =
      (some { fields := [], errors := [],
              warnings := [{ message := "m",
                             fields := some [("k", GoVal.vint 1)] }] },
       []) := by
  rfl

/-- C1 (amended): for every initialized context and odd-length pair list,
`AddWarning`/`AddError` do not fail: each appends exactly one entry to its
sequence with no diagnostic, the entry's field map is built from the
arguments with the trailing element dropped (pairs with string keys
applied), and the fields map and the other sequence are untouched. -/
theorem addWarning_addError_odd_append (c : Container) (m : String)
    (kvs : List GoVal) (hodd : kvs.length % 2 = 1) :
    AddWarning (some c) m kvs =
      (some { c with warnings := c.warnings ++ [mkEntry m kvs] }, []) ∧
    AddError (some c) m kvs =
      (some { c with errors := c.errors ++ [mkEntry m kvs] }, []) ∧
    (mkEntry m kvs).fields = some (entryPairsLoop kvs.dropLast []) := by
  refine ⟨rfl, rfl, ?_⟩
  have h0 : kvs.length > 0 := by
    rcases Nat.eq_zero_or_pos kvs.length with h | h
    · rw [h] at hodd; simp at hodd
    · exact h
  unfold mkEntry
  simp only [h0, if_pos]
  rw [entryPairsLoop_dropLast kvs hodd]

theorem addWarning_addError_odd_append_witness :
    ([GoVal.vstr "k", GoVal.vint 1, GoVal.vstr "extra"].length % 2 = 1) ∧
    (AddWarning (some newContainer) "m"
        [GoVal.vstr "k", GoVal.vint 1, GoVal.vstr "extra"] =
      (some { newContainer with
          warnings := newContainer.warnings ++
            [mkEntry "m" [GoVal.vstr "k", GoVal.vint 1, GoVal.vstr "extra"]] },
       []) ∧
     AddError (some newContainer) "m"
        [GoVal.vstr "k", GoVal.vint 1, GoVal.vstr "extra"] =
      (some { newContainer with
          errors := newContainer.errors ++
            [mkEntry "m" [GoVal.vstr "k", GoVal.vint 1, GoVal.vstr "extra"]] },
       []) ∧
     (mkEntry "m" [GoVal.vstr "k", GoVal.vint 1, GoVal.vstr "extra"]).fields =
       some (entryPairsLoop
         [GoVal.vstr "k", GoVal.vint 1, GoVal.vstr "extra"].dropLast [])) :=
  ⟨by decide,
   addWarning_addError_odd_append newContainer "m"
     [GoVal.vstr "k", GoVal.vint 1, GoVal.vstr "extra"] (by decide)⟩

/-- C9: the wrapped response writer captures exactly the status determined
by the handler's first call — an explicit `WriteHeader(code)` first yields
`code`, a body write first yields 200, and every later call leaves the
captured status unchanged (200 when the handler never writes at all). -/
theorem responseWriter_captures_first (es : List WriteEvent) :
    (rwApply rwInit es).statusCode = capturedStatus es := by
  cases es with
  | nil => rfl
  | cons e es =>
    cases e with
    | writeHeader code =>
      have h1 : rwApply rwInit (WriteEvent.writeHeader code :: es)
          = rwApply { statusCode := code, written := true } es := rfl
      rw [h1, rwApply_of_written es _ rfl]
      rfl
    | write =>
      have h1 : rwApply rwInit (WriteEvent.write :: es)
          = rwApply { statusCode := 200, written := true } es := rfl
      rw [h1, rwApply_of_written es _ rfl]
      rfl

/-- C6: on an initialized context, `AddFields` with an even-length pair
list applies exactly the string-keyed pairs with last-write-wins — within
the call (later pairs override earlier ones) and across calls (keys not
written keep their previous value) — while a non-string key skips only its
own pair; and the `collectFields` snapshot contains every applied key with
its last-written value. -/
theorem addFields_even_lastWrite (c : Container) (kvs : List GoVal)
    (heven : kvs.length % 2 = 0) :
    ∃ c', (AddFields (some c) kvs).1 = some c'
      ∧ (∀ s, mapGet c'.fields s =
          match lastWrite kvs s with
          | some w => some w
          | none => mapGet c.fields s)
      ∧ (∀ s v, mapGet c'.fields s = some v →
          (s, AnyVal.gv v) ∈ collectFields (some c')) := by
  refine ⟨addF c kvs, ?_, ?_, ?_⟩
  · unfold addF
    by_cases h0 : kvs.length = 0
    · simp [AddFields, h0]
    · simp only [AddFields, h0, if_false, heven]
      simp
  · intro s
    exact addF_get c kvs heven s
  · intro s v hv
    exact collectFields_mem_of_mapGet hv

theorem addFields_even_lastWrite_witness :
    ([GoVal.vstr "a", GoVal.vint 1, GoVal.vstr "a", GoVal.vint 2,
      GoVal.vint 9, GoVal.vint 3, GoVal.vstr "b", GoVal.vint 4].length
        % 2 = 0) ∧
    ∃ c', (AddFields (some newContainer)
        [GoVal.vstr "a", GoVal.vint 1, GoVal.vstr "a", GoVal.vint 2,
         GoVal.vint 9, GoVal.vint 3, GoVal.vstr "b", GoVal.vint 4]).1
          = some c'
      ∧ (∀ s, mapGet c'.fields s =
          match lastWrite
            [GoVal.vstr "a", GoVal.vint 1, GoVal.vstr "a", GoVal.vint 2,
             GoVal.vint 9, GoVal.vint 3, GoVal.vstr "b", GoVal.vint 4] s with
          | some w => some w
          | none => mapGet newContainer.fields s)
      ∧ (∀ s v, mapGet c'.fields s = some v →
          (s, AnyVal.gv v) ∈ collectFields (some c')) :=
  ⟨by decide,
   addFields_even_lastWrite newContainer
     [GoVal.vstr "a", GoVal.vint 1, GoVal.vstr "a", GoVal.vint 2,
      GoVal.vint 9, GoVal.vint 3, GoVal.vstr "b", GoVal.vint 4] (by decide)⟩

/-! ## Concrete middleware scenarios used by witnesses and counterexamples -/

/-- A plain GET request with no query string and no headers. -/
def reqBasic : Request :=
  { method := "GET", path := "/orders", remoteAddr := "10.0.0.1:4242",
    rawQuery := "", headers := [] }

/-- A handler that accumulates nothing, writes nothing, and returns. -/
def hbOk : HandlerBehavior :=
  { mutate := id, writes := [], panics := none }

/-- A handler that panics with the value `"boom"` before writing. -/
def hbPanic : HandlerBehavior :=
  { mutate := id, writes := [], panics := some (GoVal.vstr "boom") }

/-- The middleware configured with success-sampling rate 0.0. -/
def cfgRate0 : Config := WithSuccessSampling 0 defaultConfig

/-- `AddError` on a context known to hold a container (how a downstream
handler accumulates an error). -/
def addErrF (c : Container) (m : String) (kvs : List GoVal) : Container :=
  match (AddError (some c) m kvs).1 with
  | some c' => c'
  | none => c

/-- A handler that accumulates one error through the API and returns. -/
def hbErr : HandlerBehavior :=
  { mutate := fun c => addErrF c "db_timeout" [], writes := [], panics := none }

/-! ## Middleware unfolding lemmas -/

theorem addF_one_pair (c : Container) (k : String) (v : GoVal) :
    (addF c [GoVal.vstr k, v]).fields = mapSet c.fields k v := by
  simp [addF, AddFields, addFieldsLoop]

theorem addF_two_pairs (c : Container) (k1 k2 : String) (v1 v2 : GoVal) :
    (addF c [GoVal.vstr k1, v1, GoVal.vstr k2, v2]).fields
      = mapSet (mapSet c.fields k1 v1) k2 v2 := by
  simp [addF, AddFields, addFieldsLoop]

/-- On a non-excluded request whose handler returns normally, the
middleware's result is the classification-and-sampling step applied to the
finalized container. -/
theorem middlewareRun_normal (cfg : Config) (req : Request)
    (h : HandlerBehavior) (genID : String) (durMs : Int)
    (ctxErr : Option String) (draw : ℚ)
    (hex : cfg.excludePaths.contains req.path = false)
    (hnp : h.panics = none) :
    middlewareRun cfg req h genID durMs ctxErr draw =
      (let cE := normalFinalContainer cfg req h genID durMs ctxErr
       let lm := classify (HasErrors (some cE)) (HasWarnings (some cE))
         (finalStatus h)
       if lm.1 = Level.info ∧ cfg.samplingRate < 1 ∧ draw > cfg.samplingRate
       then { emissions := [], repanic := none, panicCallbackInvoked := false }
       else { emissions := [{ level := lm.1, message := lm.2,
                              attrs := collectFields (some cE) }],
              repanic := none, panicCallbackInvoked := false }) := by
  unfold middlewareRun
  rw [hex, hnp]
  rfl

/-- On a non-excluded request whose handler panics, the middleware's result
is the panic-guard step: one Error emission from the container extended
with the `panic` field, then callback or re-raise. -/
theorem middlewareRun_panic (cfg : Config) (req : Request)
    (h : HandlerBehavior) (genID : String) (durMs : Int)
    (ctxErr : Option String) (draw : ℚ) (v : GoVal)
    (hex : cfg.excludePaths.contains req.path = false)
    (hp : h.panics = some v) :
    middlewareRun cfg req h genID durMs ctxErr draw =
      (let cP := addF (h.mutate (seedContainer cfg req genID))
         [GoVal.vstr "panic", v]
       let em : Emission :=
         { level := Level.error, message := "http_request_panic",
           attrs := collectFields (some cP) }
       if cfg.hasOnPanic then
         { emissions := [em], repanic := none, panicCallbackInvoked := true }
       else
         { emissions := [em], repanic := some v,
           panicCallbackInvoked := false }) := by
  unfold middlewareRun
  rw [hex, hp]
  rfl

/-- The middleware's finalized container on the normal path holds the
captured status under `status_code` and the measured duration under
`duration_ms`. -/
theorem normalFinalContainer_status_duration (cfg : Config) (req : Request)
    (h : HandlerBehavior) (genID : String) (durMs : Int)
    (ctxErr : Option String) :
    mapGet (normalFinalContainer cfg req h genID durMs ctxErr).fields
        "status_code" = some (GoVal.vint (finalStatus h)) ∧
    mapGet (normalFinalContainer cfg req h genID durMs ctxErr).fields
        "duration_ms" = some (GoVal.vint durMs) := by
  unfold normalFinalContainer
  have hsc : mapGet (addF (h.mutate (seedContainer cfg req genID))
      [GoVal.vstr "status_code", GoVal.vint (finalStatus h),
       GoVal.vstr "duration_ms", GoVal.vint durMs]).fields "status_code"
      = some (GoVal.vint (finalStatus h)) := by
    rw [addF_two_pairs,
        mapGet_mapSet_other _ _ _ _ (by decide : "status_code" ≠ "duration_ms"),
        mapGet_mapSet_self]
  have hdm : mapGet (addF (h.mutate (seedContainer cfg req genID))
      [GoVal.vstr "status_code", GoVal.vint (finalStatus h),
       GoVal.vstr "duration_ms", GoVal.vint durMs]).fields "duration_ms"
      = some (GoVal.vint durMs) := by
    rw [addF_two_pairs, mapGet_mapSet_self]
  cases ctxErr with
  | none => exact ⟨hsc, hdm⟩
  | some e =>
    constructor
    · rw [addF_one_pair,
          mapGet_mapSet_other _ _ _ _
            (by decide : "status_code" ≠ "context_error")]
      exact hsc
    · rw [addF_one_pair,
          mapGet_mapSet_other _ _ _ _
            (by decide : "duration_ms" ≠ "context_error")]
      exact hdm

/-- C2 (amended): every record the middleware emits for a non-excluded,
non-suppressed request whose downstream handler returns normally contains
`status_code` (bound to the captured status) and `duration_ms` (bound to
the measured duration).  (The panic-path record carries neither — see the
accompanying counterexample — because those fields are only added after a
normal return.) -/
theorem mw_normal_emission_has_status_duration (cfg : Config) (req : Request)
    (h : HandlerBehavior) (genID : String) (durMs : Int)
    (ctxErr : Option String) (draw : ℚ)
    (hex : cfg.excludePaths.contains req.path = false)
    (hnp : h.panics = none)
    (em : Emission)
    (hm : em ∈ (middlewareRun cfg req h genID durMs ctxErr draw).emissions) :
    ("status_code", AnyVal.gv (GoVal.vint (finalStatus h))) ∈ em.attrs ∧
    ("duration_ms", AnyVal.gv (GoVal.vint durMs)) ∈ em.attrs := by
  rw [middlewareRun_normal cfg req h genID durMs ctxErr draw hex hnp] at hm
  simp only at hm
  by_cases hs :
      (classify
        (HasErrors (some (normalFinalContainer cfg req h genID durMs ctxErr)))
        (HasWarnings (some (normalFinalContainer cfg req h genID durMs ctxErr)))
        (finalStatus h)).1 = Level.info
      ∧ cfg.samplingRate < 1 ∧ draw > cfg.samplingRate
  · rw [if_pos hs] at hm
    simp at hm
  · rw [if_neg hs] at hm
    simp only [List.mem_singleton] at hm
    subst hm
    have hstat := normalFinalContainer_status_duration cfg req h genID durMs ctxErr
    exact ⟨collectFields_mem_of_mapGet hstat.1,
           collectFields_mem_of_mapGet hstat.2⟩

/-- The single emission of a concrete successful request through the
default middleware configuration. -/
def emOk : Emission :=
  (middlewareRun defaultConfig reqBasic hbOk "g" 7 none 0).emissions.headD
    { level := Level.info, message := "", attrs := [] }

theorem mw_normal_emission_has_status_duration_witness :
    ("status_code", AnyVal.gv (GoVal.vint (finalStatus hbOk))) ∈ emOk.attrs ∧
    ("duration_ms", AnyVal.gv (GoVal.vint 7)) ∈ emOk.attrs :=
  mw_normal_emission_has_status_duration defaultConfig reqBasic hbOk "g" 7
    none 0 rfl rfl emOk (by decide)

/-- The attribute keys of the record emitted when the downstream handler of
a concrete request panics under the default configuration. -/
def panicRunKeys : List String :=
  ((middlewareRun defaultConfig reqBasic hbPanic "g" 7 none 0).emissions.headD
      { level := Level.info, message := "", attrs := [] }).attrs.map Prod.fst

/-- C2 counterexample: on a concrete non-excluded request whose handler
panics, the middleware emits exactly one record and that record contains
neither `status_code` nor `duration_ms` — the claim's "including the record
emitted when the downstream handler panics" fails on the code, which adds
those fields only after `next.ServeHTTP` returns. -/
theorem mw_panic_record_lacks_status_duration :
    (middlewareRun defaultConfig reqBasic hbPanic "g" 7 none 0).emissions.length
        = 1
    ∧ panicRunKeys = ["method", "path", "remote_addr", "panic"]
    ∧ "status_code" ∉ panicRunKeys
    ∧ "duration_ms" ∉ panicRunKeys := by
  refine ⟨rfl, rfl, by decide, by decide⟩

/-- C8: when the downstream handler of a non-excluded request panics and no
panic callback is configured, the middleware emits exactly one
Error-severity record whose attributes contain the recovered value under
the `panic` key, and re-raises the identical recovered value; this holds
for every sampling rate and every draw, so panic records are never sampled
out. -/
theorem mw_panic_emits_once_and_repanics (cfg : Config) (req : Request)
    (h : HandlerBehavior) (genID : String) (durMs : Int)
    (ctxErr : Option String) (draw : ℚ) (v : GoVal)
    (hex : cfg.excludePaths.contains req.path = false)
    (hp : h.panics = some v)
    (hcb : cfg.hasOnPanic = false) :
    ∃ attrs,
      middlewareRun cfg req h genID durMs ctxErr draw =
        { emissions := [{ level := Level.error,
                          message := "http_request_panic", attrs := attrs }],
          repanic := some v, panicCallbackInvoked := false }
      ∧ ("panic", AnyVal.gv v) ∈ attrs := by
  rw [middlewareRun_panic cfg req h genID durMs ctxErr draw v hex hp]
  refine ⟨collectFields (some (addF (h.mutate (seedContainer cfg req genID))
    [GoVal.vstr "panic", v])), ?_, ?_⟩
  · simp [hcb]
  · apply collectFields_mem_of_mapGet
    rw [addF_one_pair, mapGet_mapSet_self]

theorem mw_panic_emits_once_and_repanics_witness :
    ∃ attrs,
      middlewareRun defaultConfig reqBasic hbPanic "g" 7 none 0 =
        { emissions := [{ level := Level.error,
                          message := "http_request_panic", attrs := attrs }],
          repanic := some (GoVal.vstr "boom"), panicCallbackInvoked := false }
      ∧ ("panic", AnyVal.gv (GoVal.vstr "boom")) ∈ attrs :=
  mw_panic_emits_once_and_repanics defaultConfig reqBasic hbPanic "g" 7 none 0
    (GoVal.vstr "boom") rfl rfl rfl

/-- The severity/message the middleware computes for a non-panicking
request, as a function of the finalized container and the captured
status. -/
def mwClassification (cfg : Config) (req : Request) (h : HandlerBehavior)
    (genID : String) (durMs : Int) (ctxErr : Option String) : Level × String :=
  classify
    (HasErrors (some (normalFinalContainer cfg req h genID durMs ctxErr)))
    (HasWarnings (some (normalFinalContainer cfg req h genID durMs ctxErr)))
    (finalStatus h)

theorem middlewareRun_normal_classified (cfg : Config) (req : Request)
    (h : HandlerBehavior) (genID : String) (durMs : Int)
    (ctxErr : Option String) (draw : ℚ)
    (hex : cfg.excludePaths.contains req.path = false)
    (hnp : h.panics = none) :
    middlewareRun cfg req h genID durMs ctxErr draw =
      (if (mwClassification cfg req h genID durMs ctxErr).1 = Level.info
          ∧ cfg.samplingRate < 1 ∧ draw > cfg.samplingRate
       then { emissions := [], repanic := none, panicCallbackInvoked := false }
       else { emissions :=
                [{ level := (mwClassification cfg req h genID durMs ctxErr).1,
                   message := (mwClassification cfg req h genID durMs ctxErr).2,
                   attrs := collectFields
                     (some (normalFinalContainer cfg req h genID durMs ctxErr)) }],
              repanic := none, panicCallbackInvoked := false }) := by
  rw [middlewareRun_normal cfg req h genID durMs ctxErr draw hex hnp]
  rfl

/-- C3 (amended): the success-sampling rate is clamped into [0,1] at
configuration time (and kept verbatim when already in range); for a
non-excluded request whose handler returns normally, emission is suppressed
exactly when the classified severity is Info, the configured rate is below
1, and the per-request draw is strictly greater than the rate.  Hence at
rate 1.0 nothing is suppressed, Warn/Error-classified requests are never
suppressed, and at rate 0.0 an Info-classified request is suppressed
exactly when its draw is nonzero — a draw of exactly 0 is still emitted. -/
theorem mw_sampling_gate (cfg : Config) (req : Request) (h : HandlerBehavior)
    (genID : String) (durMs : Int) (ctxErr : Option String) (draw rate : ℚ)
    (hex : cfg.excludePaths.contains req.path = false)
    (hnp : h.panics = none) :
    (0 ≤ (WithSuccessSampling rate cfg).samplingRate ∧
     (WithSuccessSampling rate cfg).samplingRate ≤ 1) ∧
    (0 ≤ rate → rate ≤ 1 →
      (WithSuccessSampling rate cfg).samplingRate = rate) ∧
    ((middlewareRun cfg req h genID durMs ctxErr draw).emissions = [] ↔
      ((mwClassification cfg req h genID durMs ctxErr).1 = Level.info
        ∧ cfg.samplingRate < 1 ∧ draw > cfg.samplingRate)) ∧
    (cfg.samplingRate = 1 →
      (middlewareRun cfg req h genID durMs ctxErr draw).emissions ≠ []) ∧
    ((mwClassification cfg req h genID durMs ctxErr).1 = Level.warn ∨
     (mwClassification cfg req h genID durMs ctxErr).1 = Level.error →
      (middlewareRun cfg req h genID durMs ctxErr draw).emissions ≠ []) ∧
    (cfg.samplingRate = 0 →
      (mwClassification cfg req h genID durMs ctxErr).1 = Level.info →
      ((middlewareRun cfg req h genID durMs ctxErr draw).emissions = [] ↔
        0 < draw)) := by
  have hiff :
      (middlewareRun cfg req h genID durMs ctxErr draw).emissions = [] ↔
      ((mwClassification cfg req h genID durMs ctxErr).1 = Level.info
        ∧ cfg.samplingRate < 1 ∧ draw > cfg.samplingRate) := by
    rw [middlewareRun_normal_classified cfg req h genID durMs ctxErr draw hex hnp]
    by_cases hs : (mwClassification cfg req h genID durMs ctxErr).1 = Level.info
        ∧ cfg.samplingRate < 1 ∧ draw > cfg.samplingRate
    · simp [hs]
    · simp [hs]
  refine ⟨⟨?_, ?_⟩, ?_, hiff, ?_, ?_, ?_⟩
  · unfold WithSuccessSampling
    simp only
    split_ifs with h1 h2
    · exact le_refl 0
    · norm_num
    · linarith
  · unfold WithSuccessSampling
    simp only
    split_ifs with h1 h2
    · norm_num
    · exact le_refl 1
    · linarith
  · intro h0 h1
    unfold WithSuccessSampling
    simp only
    split_ifs with ha hb
    · linarith
    · linarith
    · rfl
  · intro h1 hemp
    have hc := hiff.mp hemp
    rw [h1] at hc
    exact absurd hc.2.1 (lt_irrefl 1)
  · intro hlv hemp
    have hinfo := (hiff.mp hemp).1
    cases hlv with
    | inl hw => rw [hw] at hinfo; cases hinfo
    | inr he => rw [he] at hinfo; cases hinfo
  · intro h0 hinfo
    constructor
    · intro hemp
      have hc := hiff.mp hemp
      rw [h0] at hc
      exact hc.2.2
    · intro hdraw
      refine hiff.mpr ⟨hinfo, ?_, ?_⟩
      · rw [h0]; norm_num
      · rw [h0]; exact hdraw

theorem mw_sampling_gate_witness :
    (0 ≤ (WithSuccessSampling 2 cfgRate0).samplingRate ∧
     (WithSuccessSampling 2 cfgRate0).samplingRate ≤ 1) ∧
    ((0:ℚ) ≤ 2 → (2:ℚ) ≤ 1 →
      (WithSuccessSampling 2 cfgRate0).samplingRate = 2) ∧
    ((middlewareRun cfgRate0 reqBasic hbOk "g" 7 none (1/2)).emissions = [] ↔
      ((mwClassification cfgRate0 reqBasic hbOk "g" 7 none).1 = Level.info
        ∧ cfgRate0.samplingRate < 1 ∧ (1:ℚ)/2 > cfgRate0.samplingRate)) ∧
    (cfgRate0.samplingRate = 1 →
      (middlewareRun cfgRate0 reqBasic hbOk "g" 7 none (1/2)).emissions ≠ []) ∧
    ((mwClassification cfgRate0 reqBasic hbOk "g" 7 none).1 = Level.warn ∨
     (mwClassification cfgRate0 reqBasic hbOk "g" 7 none).1 = Level.error →
      (middlewareRun cfgRate0 reqBasic hbOk "g" 7 none (1/2)).emissions ≠ []) ∧
    (cfgRate0.samplingRate = 0 →
      (mwClassification cfgRate0 reqBasic hbOk "g" 7 none).1 = Level.info →
      ((middlewareRun cfgRate0 reqBasic hbOk "g" 7 none (1/2)).emissions = [] ↔
        (0:ℚ) < 1/2)) :=
  mw_sampling_gate cfgRate0 reqBasic hbOk "g" 7 none (1/2) 2 rfl rfl

/-- C3 counterexample: with sampling rate 0.0 and a sampling draw of
exactly 0 (a value `math/rand/v2.Float64` can return), a pure-success
Info-classified request is still emitted — the code suppresses on
`draw > rate`, not `draw ≥ rate`, so "at rate 0.0 every Info-classified
request is suppressed" fails on the code. -/
theorem mw_rate0_draw0_info_emitted :
    cfgRate0.samplingRate = 0 ∧
    middlewareRun cfgRate0 reqBasic hbOk "g" 7 none 0 =
      { emissions :=
          [{ level := Level.info, message := "http_request_completed",
             attrs :=
               [("method", AnyVal.gv (GoVal.vstr "GET")),
                ("path", AnyVal.gv (GoVal.vstr "/orders")),
                ("remote_addr", AnyVal.gv (GoVal.vstr "10.0.0.1:4242")),
                ("status_code", AnyVal.gv (GoVal.vint 200)),
                ("duration_ms", AnyVal.gv (GoVal.vint 7))] }],
        repanic := none, panicCallbackInvoked := false } := by
  refine ⟨by decide, by decide⟩

/-- C4: for every non-excluded request whose handler returns normally, the
emitted record (when not suppressed) carries exactly the middleware's
classification, and that classification follows the strict five-branch
precedence — the branch guards below are pairwise exclusive and exhaustive,
so exactly one branch applies: errors present → Error with
`http_request_completed_with_errors`; else warnings present → Warn with
`http_request_completed_with_warnings`; else status ≥ 500 → Error with
`http_request_completed`; else status ≥ 400 → Warn with
`http_request_completed`; else Info with `http_request_completed`. -/
theorem mw_classification_precedence (cfg : Config) (req : Request)
    (h : HandlerBehavior) (genID : String) (durMs : Int)
    (ctxErr : Option String) (draw : ℚ)
    (hex : cfg.excludePaths.contains req.path = false)
    (hnp : h.panics = none) :
    ((middlewareRun cfg req h genID durMs ctxErr draw).emissions = [] ∨
     (middlewareRun cfg req h genID durMs ctxErr draw).emissions =
       [{ level := (mwClassification cfg req h genID durMs ctxErr).1,
          message := (mwClassification cfg req h genID durMs ctxErr).2,
          attrs := collectFields
            (some (normalFinalContainer cfg req h genID durMs ctxErr)) }]) ∧
    ((HasErrors (some (normalFinalContainer cfg req h genID durMs ctxErr)) = true
       ∧ mwClassification cfg req h genID durMs ctxErr =
           (Level.error, "http_request_completed_with_errors")) ∨
     (HasErrors (some (normalFinalContainer cfg req h genID durMs ctxErr)) = false
       ∧ HasWarnings (some (normalFinalContainer cfg req h genID durMs ctxErr)) = true
       ∧ mwClassification cfg req h genID durMs ctxErr =
           (Level.warn, "http_request_completed_with_warnings")) ∨
     (HasErrors (some (normalFinalContainer cfg req h genID durMs ctxErr)) = false
       ∧ HasWarnings (some (normalFinalContainer cfg req h genID durMs ctxErr)) = false
       ∧ 500 ≤ finalStatus h
       ∧ mwClassification cfg req h genID durMs ctxErr =
           (Level.error, "http_request_completed")) ∨
     (HasErrors (some (normalFinalContainer cfg req h genID durMs ctxErr)) = false
       ∧ HasWarnings (some (normalFinalContainer cfg req h genID durMs ctxErr)) = false
       ∧ ¬ (500 ≤ finalStatus h) ∧ 400 ≤ finalStatus h
       ∧ mwClassification cfg req h genID durMs ctxErr =
           (Level.warn, "http_request_completed")) ∨
     (HasErrors (some (normalFinalContainer cfg req h genID durMs ctxErr)) = false
       ∧ HasWarnings (some (normalFinalContainer cfg req h genID durMs ctxErr)) = false
       ∧ ¬ (400 ≤ finalStatus h)
       ∧ mwClassification cfg req h genID durMs ctxErr =
           (Level.info, "http_request_completed"))) := by
  constructor
  · rw [middlewareRun_normal_classified cfg req h genID durMs ctxErr draw hex hnp]
    by_cases hs : (mwClassification cfg req h genID durMs ctxErr).1 = Level.info
        ∧ cfg.samplingRate < 1 ∧ draw > cfg.samplingRate
    · left; simp [hs]
    · right; simp [hs]
  · unfold mwClassification classify
    cases hE : HasErrors (some (normalFinalContainer cfg req h genID durMs ctxErr)) with
    | true => left; simp
    | false =>
      cases hW : HasWarnings (some (normalFinalContainer cfg req h genID durMs ctxErr)) with
      | true => right; left; simp
      | false =>
        by_cases h5 : (500:ℤ) ≤ finalStatus h
        · right; right; left
          simp [h5]
        · by_cases h4 : (400:ℤ) ≤ finalStatus h
          · right; right; right; left
            simp [h5, h4]
          · right; right; right; right
            simp [h5, h4]

theorem mw_classification_precedence_witness :
    ((middlewareRun defaultConfig reqBasic hbErr "g" 7 none 0).emissions = [] ∨
     (middlewareRun defaultConfig reqBasic hbErr "g" 7 none 0).emissions =
       [{ level := (mwClassification defaultConfig reqBasic hbErr "g" 7 none).1,
          message := (mwClassification defaultConfig reqBasic hbErr "g" 7 none).2,
          attrs := collectFields
            (some (normalFinalContainer defaultConfig reqBasic hbErr "g" 7 none)) }]) ∧
    ((HasErrors (some (normalFinalContainer defaultConfig reqBasic hbErr "g" 7 none)) = true
       ∧ mwClassification defaultConfig reqBasic hbErr "g" 7 none =
           (Level.error, "http_request_completed_with_errors")) ∨
     (HasErrors (some (normalFinalContainer defaultConfig reqBasic hbErr "g" 7 none)) = false
       ∧ HasWarnings (some (normalFinalContainer defaultConfig reqBasic hbErr "g" 7 none)) = true
       ∧ mwClassification defaultConfig reqBasic hbErr "g" 7 none =
           (Level.warn, "http_request_completed_with_warnings")) ∨
     (HasErrors (some (normalFinalContainer defaultConfig reqBasic hbErr "g" 7 none)) = false
       ∧ HasWarnings (some (normalFinalContainer defaultConfig reqBasic hbErr "g" 7 none)) = false
       ∧ 500 ≤ finalStatus hbErr
       ∧ mwClassification defaultConfig reqBasic hbErr "g" 7 none =
           (Level.error, "http_request_completed")) ∨
     (HasErrors (some (normalFinalContainer defaultConfig reqBasic hbErr "g" 7 none)) = false
       ∧ HasWarnings (some (normalFinalContainer defaultConfig reqBasic hbErr "g" 7 none)) = false
       ∧ ¬ (500 ≤ finalStatus hbErr) ∧ 400 ≤ finalStatus hbErr
       ∧ mwClassification defaultConfig reqBasic hbErr "g" 7 none =
           (Level.warn, "http_request_completed")) ∨
     (HasErrors (some (normalFinalContainer defaultConfig reqBasic hbErr "g" 7 none)) = false
       ∧ HasWarnings (some (normalFinalContainer defaultConfig reqBasic hbErr "g" 7 none)) = false
       ∧ ¬ (400 ≤ finalStatus hbErr)
       ∧ mwClassification defaultConfig reqBasic hbErr "g" 7 none =
           (Level.info, "http_request_completed"))) :=
  mw_classification_precedence defaultConfig reqBasic hbErr "g" 7 none 0 rfl rfl

end Widelogger
